import Mathlib

/-!
# A verification model of `src/draw.py` (sun-plots)

`draw.py` computes, for the year 2022 at Leith (Europe/London), the daily
light phases at one-minute resolution and renders them as a heatmap.  This
file embeds the computational pipeline of the script — the day-by-day
discrete-event sweep, the floor-to-minute + resample + forward-fill
expansion, the year filter, the pivot to a (time-of-day × date) grid, the
last-day label derivation and the solstice filtering — as executable Lean
definitions, and proves properties of them.

Conventions.  Instants are natural numbers counting seconds (event instants)
or minutes since the epoch 2021-12-31 00:00 UTC, which coincides with
2021-12-31 00:00 Europe/London wall time (GMT).  The astronomical oracle
(skyfield) is an external collaborator: its outputs appear as inputs of the
Lean pipeline functions, and the constant tables it publishes are modelled
from the spec.
-/

/-- A discrete twilight transition as produced by the oracle
(`almanac.find_discrete` with `dark_twilight_day`, draw.py lines 39-42):
the instant, in seconds since the epoch, and the phase id after the
transition. -/
structure Event where
  time : Nat
  stageID : Nat
deriving DecidableEq

/-- Modelled from the spec: skyfield's `almanac.TWILIGHTS` table, mapping
phase ids 0-4 to phase names in order of increasing light (used at
draw.py line 42 to fill the `Stage` column). -/
def TWILIGHTS : Nat → String := fun i =>
  ["Night", "Astronomical twilight", "Nautical twilight",
   "Civil twilight", "Day"].getD i ""

/-! ## The Europe/London 2022 clock

Modelled from the spec: the `pytz` timezone `Europe/London` used throughout
the script.  Within the range of instants the script touches
(2021-12-31 … 2023-01-04) the timezone switches GMT→BST at
2022-03-27 01:00 UTC and BST→GMT at 2022-10-30 01:00 UTC. -/

/-- UTC minute of the GMT→BST switch, 2022-03-27 01:00 UTC
(86 days and one hour after the epoch). -/
def springForward : Nat := 123900

/-- UTC minute of the BST→GMT switch, 2022-10-30 01:00 UTC
(303 days and one hour after the epoch). -/
def fallBack : Nat := 436380

/-- Minutes added to a UTC minute to obtain Europe/London wall-clock time. -/
def utcOffset (m : Nat) : Nat :=
  if springForward ≤ m ∧ m < fallBack then 60 else 0

/-- Europe/London wall-clock minute count of a UTC minute. -/
def localOf (m : Nat) : Nat := m + utcOffset m

/-- Column `all_minutes['Date'] = DateTime.dt.date` (draw.py line 49): the local
calendar-day index of a UTC minute (day 0 = 2021-12-31, day 1 = 2022-01-01,
day 365 = 2022-12-31). -/
def localDate (m : Nat) : Nat := localOf m / 1440

/-- Column `all_minutes['Time']` (draw.py line 52): the wall-clock time of day
normalised to a reference date, as minutes after local midnight. -/
def localTod (m : Nat) : Nat := localOf m % 1440

/-- The UTC minute of an (unambiguous) Europe/London wall-clock minute;
used for the boundaries of the tz-aware `pd.date_range` (draw.py line 31). -/
def utcOfLocal (lm : Nat) : Nat :=
  if springForward + 60 ≤ lm ∧ lm < fallBack + 60 then lm - 60 else lm

/-! ## The day-by-day sweep (draw.py lines 31-42) -/

/-- Parameter `periods=370` of the `pd.date_range` at draw.py line 31. -/
def numBoundaries : Nat := 370

/-- Boundary `dates[i]` of draw.py line 31 as a UTC minute: local midnight `i` days
after 2021-12-31 00:00 Europe/London. -/
def sweepBoundaryMin (i : Nat) : Nat := utcOfLocal (1440 * i)

/-- Boundary `dates[i]` as a UTC second, comparable with `Event.time`. -/
def sweepBoundarySec (i : Nat) : Nat := 60 * sweepBoundaryMin i

/-- The `zip(dates, dates[1:])` windows of the sweep loop (draw.py line 36),
as (start, end) pairs of UTC seconds. -/
def sweepWindows : List (Nat × Nat) :=
  (List.range (numBoundaries - 1)).map fun i =>
    (sweepBoundarySec i, sweepBoundarySec (i + 1))

/-- List `all_records` (draw.py lines 35-42): the concatenation, window by
window, of the oracle's discrete events.  The oracle is a parameter: it
stands for `almanac.find_discrete` applied to the twilight function. -/
def sweepEvents (oracle : Nat → Nat → List Event) : List Event :=
  sweepWindows.flatMap fun w => oracle w.1 w.2

/-! ## Expansion to minutes (draw.py lines 44-55) -/

/-- Column `all_stages['DateTime'] = StageStart.dt.floor('1min')` (draw.py
line 45): the minute index of an event instant. -/
def floorMin (ev : Event) : Nat := ev.time / 60

/-- The index of `all_minutes` (draw.py line 47): `resample('1min')` yields
every minute from the first to the last event minute. -/
def minuteList (es : List Event) : List Nat :=
  match (es.map floorMin).min?, (es.map floorMin).max? with
  | some a, some b => List.range' a (b + 1 - a)
  | _, _ => []

/-- Forward fill (draw.py line 47): the phase at minute `m` is the phase of
the last event whose floored minute is at or before `m` (none when no event
has happened yet). -/
def phaseAt (es : List Event) (m : Nat) : Option Nat :=
  ((es.filter fun ev => decide (floorMin ev ≤ m)).getLast?).map Event.stageID

/-- The `StageID` column of `all_minutes`, with a default for the
(never-rendered) undefined case. -/
def stageAtD (es : List Event) (m : Nat) : Nat := (phaseAt es m).getD 0

/-- Lower bound of the year filter at draw.py line 55
(`2022/01/01 00:00:00` Europe/London), as a UTC minute. -/
def windowStartMin : Nat := 1440

/-- Upper bound of the year filter at draw.py line 55
(`2022/12/31 23:59:59` Europe/London), as a UTC minute. -/
def windowEndMin : Nat := 527039

/-- Table `all_minutes` after the `between` filter at draw.py line 55. -/
def filteredMinutes (es : List Event) : List Nat :=
  (minuteList es).filter fun m => decide (windowStartMin ≤ m ∧ m ≤ windowEndMin)

/-! ## The grid (draw.py line 69) -/

/-- The rows of `pivoted`: the distinct normalised time-of-day values. -/
def gridTods (es : List Event) : Finset Nat :=
  ((filteredMinutes es).map localTod).toFinset

/-- The columns of `pivoted`: the distinct local calendar dates. -/
def gridDates (es : List Event) : Finset Nat :=
  ((filteredMinutes es).map localDate).toFinset

/-- The minute records that fall in the grid cell (date `d`,
time-of-day `t`). -/
def gridCellRecords (es : List Event) (d t : Nat) : List Nat :=
  (filteredMinutes es).filter fun m => decide (localDate m = d ∧ localTod m = t)

/-- The value of a grid cell: `pivot_table` aggregates the `StageID` values
of the cell's minute records with its default `mean`; an empty cell has no
value. -/
def gridCellValue (es : List Event) (d t : Nat) : Option ℚ :=
  if (gridCellRecords es d t).isEmpty then none
  else some ((((gridCellRecords es d t).map fun m => (stageAtD es m : ℚ)).sum)
    / (gridCellRecords es d t).length)

/-! ## Label derivation (draw.py lines 57-66) -/

/-- A row of `last_day`: normalised time of day (minutes after local
midnight), calendar date and phase id. -/
structure DayRec where
  tod : Nat
  date : Nat
  stageID : Nat
deriving DecidableEq

/-- Column `DateTime.dt.strftime('%p')` (draw.py line 62): AM before local noon,
PM from noon on. -/
def ampm (t : Nat) : String := if t < 720 then "AM" else "PM"

/-- The `Period` column (draw.py lines 60-63): the phase name, suffixed by
the half of day except for the `Day` phase. -/
def period (r : DayRec) : String :=
  if TWILIGHTS r.stageID = "Day" then "Day"
  else TWILIGHTS r.stageID ++ "_" ++ ampm r.tod

/-- A row of `labels` (draw.py lines 65-66). -/
structure Anchor where
  period : String
  meanTod : ℚ
  date : Nat
  stageID : Nat
deriving DecidableEq

/-- Table `last_day.groupby('Period').agg({'Time': 'mean', 'Date': 'first',
'StageID': 'first'})` (draw.py lines 65-66): one anchor per distinct
`Period` key, carrying the mean time of day over all rows of the group and
the first date and phase id. -/
def labelsOf (rs : List DayRec) : List Anchor :=
  ((rs.map period).dedup).map fun p =>
    let g := rs.filter fun r => decide (period r = p)
    ⟨p, ((g.map fun r => (r.tod : ℚ)).sum) / g.length,
     (g.head?.map DayRec.date).getD 0, (g.head?.map DayRec.stageID).getD 0⟩

/-- Collapse adjacent equal entries: the sequence of contiguous runs of a
list (used to state which phase sequence a day passes through). -/
def runsOf {α : Type} [DecidableEq α] : List α → List α
  | [] => []
  | [a] => [a]
  | a :: b :: rest => if a = b then runsOf (b :: rest) else a :: runsOf (b :: rest)

/-- Value `all_minutes['Date'].max()` (draw.py line 58). -/
def lastDate (es : List Event) : Nat :=
  ((filteredMinutes es).map localDate).foldr max 0

/-- Table `last_day` (draw.py line 58), as label-derivation records. -/
def lastDayRecords (es : List Event) : List DayRec :=
  ((filteredMinutes es).filter fun m => decide (localDate m = lastDate es)).map
    fun m => ⟨localTod m, localDate m, stageAtD es m⟩

/-! ## Solstice marking (draw.py lines 133-150) -/

/-- Modelled from the spec: skyfield's `almanac.SEASON_EVENTS` names
(draw.py line 139). -/
def SEASON_EVENTS : List String :=
  ["Vernal Equinox", "Summer Solstice", "Autumnal Equinox", "Winter Solstice"]

/-- ASCII lower-casing of one character, as Python `str.lower` does on the
season names. -/
def lowerChar (c : Char) : Char :=
  if 'A' ≤ c ∧ c ≤ 'Z' then Char.ofNat (c.toNat + 32) else c

/-- Python `event.lower()` on a season name, as a character list. -/
def lowerStr (s : String) : List Char := s.data.map lowerChar

/-- Substring test on character lists. -/
def hasSubstring (pat : List Char) : List Char → Bool
  | [] => pat.isPrefixOf []
  | c :: rest => pat.isPrefixOf (c :: rest) || hasSubstring pat rest

/-- Test `'solstice' in event.lower()` (draw.py line 140). -/
def containsSolstice (s : String) : Bool :=
  hasSubstring "solstice".data (lowerStr s)

/-- Lookup `almanac.SEASON_EVENTS[idx]` (draw.py line 139). -/
def seasonName (i : Fin 4) : String := SEASON_EVENTS.getD i ""

/-- The season events retained by the solstice loop (draw.py
lines 138-143): pairs of a UTC minute and a season index whose name
contains `solstice`. -/
def solsticeMarks (sevs : List (Nat × Fin 4)) : List (Nat × Fin 4) :=
  sevs.filter fun p => containsSolstice (seasonName p.2)

/-- Instant `ts.utc(2022, 1, 1)` (draw.py line 134) as a UTC minute. -/
def seasonsQueryStart : Nat := 1440

/-- Instant `ts.utc(2022, 12, 31)` (draw.py line 134) as a UTC minute:
2022-12-31 00:00 UTC, the start of epoch day 365. -/
def seasonsQueryEnd : Nat := 525600

/-- Membership in the interval searched by the seasons query
(draw.py lines 133-136). -/
def inSeasonsQuery (t : Nat) : Prop :=
  seasonsQueryStart ≤ t ∧ t < seasonsQueryEnd

instance (t : Nat) : Decidable (inSeasonsQuery t) :=
  inferInstanceAs (Decidable (seasonsQueryStart ≤ t ∧ t < seasonsQueryEnd))

/-! ## Forward fill (claim C1) -/

/-- Claim C1, as stated, is false on the code: with transition events at
0 s (phase 0) and 630 s (phase 1), the minute record at minute 10
(instant 600 s) lies in the interval [0, 630) between the two adjacent
events, yet its forward-filled phase is 1, not 0 — because draw.py floors
event instants to the minute (line 45) before the fill, the minute
containing a transition already carries the new phase. -/
theorem c1_counterexample :
    ¬ (∀ (es : List Event), es.Pairwise (fun a b => a.time ≤ b.time) →
        ∀ (i m : Nat), i + 1 < es.length → m ∈ minuteList es →
        (es.getD i ⟨0, 0⟩).time ≤ 60 * m → 60 * m < (es.getD (i + 1) ⟨0, 0⟩).time →
        phaseAt es m = some (es.getD i ⟨0, 0⟩).stageID) := by
  intro h
  have h10 := h [⟨0, 0⟩, ⟨630, 1⟩] (by decide) 0 10
    (by decide) (by decide) (by decide) (by decide)
  exact absurd h10 (by decide)

/-- Claim C1, amended: between the *floored minutes* of two chronologically
adjacent transition events, every minute record carries the earlier event's
phase; equivalently, a minute's phase is that of the latest event whose
floored instant is at or before the minute. -/
theorem c1_ffill (es : List Event)
    (hs : es.Pairwise (fun a b => a.time ≤ b.time))
    (i m : Nat) (hi : i + 1 < es.length) (_hm : m ∈ minuteList es)
    (h1 : floorMin (es.getD i ⟨0, 0⟩) ≤ m)
    (h2 : m < floorMin (es.getD (i + 1) ⟨0, 0⟩)) :
    phaseAt es m = some (es.getD i ⟨0, 0⟩).stageID := by
  have hii : i < es.length := Nat.lt_of_succ_lt hi
  rw [List.getD_eq_getElem _ _ hii] at h1 ⊢
  rw [List.getD_eq_getElem _ _ hi] at h2
  unfold phaseAt
  have hsplit : es = es.take (i + 1) ++ es.drop (i + 1) :=
    (List.take_append_drop _ _).symm
  have hfilter := congrArg (List.filter (fun ev => decide (floorMin ev ≤ m))) hsplit
  rw [List.filter_append] at hfilter
  rw [hfilter]
  have hdropnil :
      (es.drop (i + 1)).filter (fun ev => decide (floorMin ev ≤ m)) = [] := by
    rw [List.filter_eq_nil_iff]
    intro a ha
    have hd : es.drop (i + 1) = es[i + 1] :: es.drop (i + 2) :=
      List.drop_eq_getElem_cons hi
    have hp : (es.drop (i + 1)).Pairwise (fun a b => a.time ≤ b.time) :=
      hs.sublist (List.drop_sublist _ _)
    rw [hd] at ha hp
    have hge : es[i + 1].time ≤ a.time := by
      rcases List.mem_cons.mp ha with h | h
      · rw [h]
      · exact (List.pairwise_cons.mp hp).1 a h
    have : floorMin es[i + 1] ≤ floorMin a := Nat.div_le_div_right hge
    simp only [decide_eq_true_eq]
    omega
  rw [hdropnil, List.append_nil, List.take_succ,
    List.getElem?_eq_getElem hii]
  simp only [Option.toList_some, List.filter_append]
  have hkeep : [es[i]].filter (fun ev => decide (floorMin ev ≤ m)) = [es[i]] := by
    simp [h1]
  rw [hkeep, List.getLast?_concat]
  rfl

/-- Witness for `c1_ffill` at a concrete input: events at 0 s (phase 0) and
630 s (phase 1); minute 5 carries phase 0. -/
theorem c1_ffill_witness :
    ([⟨0, 0⟩, ⟨630, 1⟩] : List Event).Pairwise (fun a b => a.time ≤ b.time)
    ∧ (5 : Nat) ∈ minuteList [⟨0, 0⟩, ⟨630, 1⟩]
    ∧ phaseAt [⟨0, 0⟩, ⟨630, 1⟩] 5 = some 0 :=
  ⟨by decide, by decide,
    c1_ffill [⟨0, 0⟩, ⟨630, 1⟩] (by decide) 0 5 (by decide) (by decide)
      (by decide) (by decide)⟩

/-! ## Helper lemmas on the minute timeline -/

/-- If some event has happened by minute `m`, the forward fill is defined
there. -/
lemma phaseAt_isSome (es : List Event) (m : Nat)
    (h : ∃ ev ∈ es, floorMin ev ≤ m) : ∃ s, phaseAt es m = some s := by
  obtain ⟨ev, hev, hle⟩ := h
  have hmem : ev ∈ es.filter fun ev => decide (floorMin ev ≤ m) :=
    List.mem_filter.mpr ⟨hev, by simpa using hle⟩
  have hne : (es.filter fun ev => decide (floorMin ev ≤ m)) ≠ [] :=
    List.ne_nil_of_mem hmem
  obtain ⟨x, hx⟩ := Option.isSome_iff_exists.mp (List.getLast?_isSome.mpr hne)
  exact ⟨x.stageID, by simp [phaseAt, hx]⟩

/-- The phase filled at a minute is the phase of one of the events. -/
lemma phaseAt_mem (es : List Event) (m s : Nat)
    (h : phaseAt es m = some s) : ∃ ev ∈ es, ev.stageID = s := by
  unfold phaseAt at h
  obtain ⟨ev, hev, hs⟩ := Option.map_eq_some'.mp h
  exact ⟨ev, (List.mem_filter.mp (List.mem_of_mem_getLast? hev)).1, hs⟩

/-- Membership in the resampled minute index, in terms of the extreme event
minutes. -/
lemma mem_minuteList {es : List Event} {a b m : Nat}
    (ha : (es.map floorMin).min? = some a)
    (hb : (es.map floorMin).max? = some b) :
    m ∈ minuteList es ↔ a ≤ m ∧ m ≤ b := by
  have hab : a ≤ b := by
    have h1 := (List.min?_eq_some_iff'.mp ha).1
    exact (List.max?_eq_some_iff'.mp hb).2 a h1
  unfold minuteList
  rw [ha, hb, List.mem_range'_1]
  omega

/-- Membership in the year-filtered minute list. -/
lemma mem_filteredMinutes {es : List Event} {a b m : Nat}
    (ha : (es.map floorMin).min? = some a)
    (hb : (es.map floorMin).max? = some b) :
    m ∈ filteredMinutes es ↔ (a ≤ m ∧ m ≤ b) ∧
      windowStartMin ≤ m ∧ m ≤ windowEndMin := by
  unfold filteredMinutes
  rw [List.mem_filter, mem_minuteList ha hb]
  simp

/-! ## Boundary and padding (claim C5) -/

/-- Claim C5: provided the oracle reports an event in the padding before the
2022 window and one at or after its end (as it does: the sweep starts a full
day early and runs past the year), the first and the last minute of the
filtered window are minute records and both carry a defined phase; every
filtered minute lies at or after the first recorded event minute (minutes
before the first event are never materialised); and the sweep's query range
starts at least one full day before the window. -/
theorem c5_boundary (es : List Event) (a b : Nat)
    (ha : (es.map floorMin).min? = some a)
    (hb : (es.map floorMin).max? = some b)
    (hpad : a ≤ windowStartMin) (hcov : windowEndMin ≤ b) :
    (∃ s, phaseAt es windowStartMin = some s)
    ∧ (∃ s, phaseAt es windowEndMin = some s)
    ∧ windowStartMin ∈ filteredMinutes es
    ∧ windowEndMin ∈ filteredMinutes es
    ∧ (∀ m ∈ filteredMinutes es, a ≤ m)
    ∧ sweepBoundaryMin 0 + 1440 ≤ windowStartMin := by
  have hmin := List.min?_eq_some_iff'.mp ha
  obtain ⟨ev, hev, heq⟩ := List.mem_map.mp hmin.1
  have hworder : windowStartMin ≤ windowEndMin := by decide
  refine ⟨?_, ?_, ?_, ?_, ?_, ?_⟩
  · exact phaseAt_isSome es _ ⟨ev, hev, by omega⟩
  · exact phaseAt_isSome es _ ⟨ev, hev, by omega⟩
  · exact (mem_filteredMinutes ha hb).mpr ⟨⟨hpad, by omega⟩, le_refl _, by omega⟩
  · exact (mem_filteredMinutes ha hb).mpr ⟨⟨by omega, hcov⟩, by omega, le_refl _⟩
  · intro m hm
    exact ((mem_filteredMinutes ha hb).mp hm).1.1
  · decide

/-- Witness for `c5_boundary`: a first event at the epoch (inside the
padding day) and a last one in the final minute of 2022. -/
theorem c5_boundary_witness :
    (([⟨0, 0⟩, ⟨31622370, 4⟩] : List Event).map floorMin).min? = some 0
    ∧ (([⟨0, 0⟩, ⟨31622370, 4⟩] : List Event).map floorMin).max? = some 527039
    ∧ ((∃ s, phaseAt [⟨0, 0⟩, ⟨31622370, 4⟩] windowStartMin = some s)
      ∧ (∃ s, phaseAt [⟨0, 0⟩, ⟨31622370, 4⟩] windowEndMin = some s)
      ∧ windowStartMin ∈ filteredMinutes [⟨0, 0⟩, ⟨31622370, 4⟩]
      ∧ windowEndMin ∈ filteredMinutes [⟨0, 0⟩, ⟨31622370, 4⟩]
      ∧ (∀ m ∈ filteredMinutes [⟨0, 0⟩, ⟨31622370, 4⟩], 0 ≤ m)
      ∧ sweepBoundaryMin 0 + 1440 ≤ windowStartMin) :=
  ⟨by decide, by decide,
    c5_boundary [⟨0, 0⟩, ⟨31622370, 4⟩] 0 527039 (by decide) (by decide)
      (by decide) (by decide)⟩

/-! ## Determinism (claim C6) -/

/-- Claim C6: the pipeline from event discovery to the pivoted grid is a
pure function of the oracle's events — two runs on identical inputs yield
the identical grid (dates, times of day and every cell value), whatever the
rendering code does afterwards. -/
theorem c6_determinism (oracle₁ oracle₂ : Nat → Nat → List Event)
    (h : ∀ t0 t1, oracle₁ t0 t1 = oracle₂ t0 t1) :
    sweepEvents oracle₁ = sweepEvents oracle₂
    ∧ gridDates (sweepEvents oracle₁) = gridDates (sweepEvents oracle₂)
    ∧ gridTods (sweepEvents oracle₁) = gridTods (sweepEvents oracle₂)
    ∧ ∀ d t, gridCellValue (sweepEvents oracle₁) d t
        = gridCellValue (sweepEvents oracle₂) d t := by
  have he : oracle₁ = oracle₂ := funext fun t0 => funext fun t1 => h t0 t1
  subst he
  exact ⟨rfl, rfl, rfl, fun d t => rfl⟩

/-- Witness for `c6_determinism` at a concrete oracle. -/
theorem c6_determinism_witness :
    sweepEvents (fun _ _ => [⟨0, 0⟩]) = sweepEvents (fun _ _ => [⟨0, 0⟩])
    ∧ gridDates (sweepEvents fun _ _ => [⟨0, 0⟩])
        = gridDates (sweepEvents fun _ _ => [⟨0, 0⟩])
    ∧ gridTods (sweepEvents fun _ _ => [⟨0, 0⟩])
        = gridTods (sweepEvents fun _ _ => [⟨0, 0⟩])
    ∧ ∀ d t, gridCellValue (sweepEvents fun _ _ => [⟨0, 0⟩]) d t
        = gridCellValue (sweepEvents fun _ _ => [⟨0, 0⟩]) d t :=
  c6_determinism (fun _ _ => [⟨0, 0⟩]) (fun _ _ => [⟨0, 0⟩]) (fun _ _ => rfl)

/-! ## Grid shape (claim C2) -/

/-- No UTC minute has a Europe/London wall-clock reading inside the hour
skipped by the spring-forward transition. -/
lemma localOf_avoids_gap (m : Nat) :
    localOf m < springForward ∨ springForward + 60 ≤ localOf m := by
  unfold localOf utcOffset springForward fallBack
  split_ifs <;> omega

/-- The spring-forward cells of the grid are empty for every event input:
on 2022-03-27 no minute record has a wall clock between 01:00 and 01:59. -/
lemma gap_cells_empty (es : List Event) (t : Nat) (h60 : 60 ≤ t)
    (h120 : t < 120) : gridCellRecords es 86 t = [] := by
  unfold gridCellRecords
  rw [List.filter_eq_nil_iff]
  intro m _hm hmt
  simp only [decide_eq_true_eq] at hmt
  obtain ⟨hd, ht⟩ := hmt
  have hlo : localOf m = 86 * 1440 + t := by
    unfold localDate at hd
    unfold localTod at ht
    omega
  have := localOf_avoids_gap m
  unfold springForward at this
  omega

/-- With the sweep's padding (an event at or before the window start and one
at or after its end), the filtered minutes are exactly the minutes of 2022. -/
lemma filteredMinutes_covers {es : List Event} {a b : Nat}
    (ha : (es.map floorMin).min? = some a)
    (hb : (es.map floorMin).max? = some b)
    (hpad : a ≤ windowStartMin) (hcov : windowEndMin ≤ b) :
    ∀ m, m ∈ filteredMinutes es ↔ 1440 ≤ m ∧ m ≤ 527039 := by
  intro m
  rw [mem_filteredMinutes ha hb]
  unfold windowStartMin at hpad ⊢
  unfold windowEndMin at hcov ⊢
  omega

/-- Under the padding hypotheses the grid's columns are exactly the 365
local calendar dates of 2022. -/
lemma gridDates_eq {es : List Event} {a b : Nat}
    (ha : (es.map floorMin).min? = some a)
    (hb : (es.map floorMin).max? = some b)
    (hpad : a ≤ windowStartMin) (hcov : windowEndMin ≤ b) :
    gridDates es = Finset.Icc 1 365 := by
  ext d
  unfold gridDates
  rw [List.mem_toFinset, List.mem_map, Finset.mem_Icc]
  constructor
  · rintro ⟨m, hm, rfl⟩
    rw [filteredMinutes_covers ha hb hpad hcov] at hm
    unfold localDate localOf utcOffset springForward fallBack
    split_ifs <;> omega
  · intro hd
    by_cases h1 : 1440 * d < springForward
    · refine ⟨1440 * d, ?_, ?_⟩
      · rw [filteredMinutes_covers ha hb hpad hcov]
        unfold springForward at h1
        omega
      · unfold localDate localOf utcOffset
        split_ifs <;> omega
    · by_cases h2 : 1440 * d < fallBack + 60
      · refine ⟨1440 * d - 60, ?_, ?_⟩
        · rw [filteredMinutes_covers ha hb hpad hcov]
          unfold springForward at h1
          omega
        · unfold localDate localOf utcOffset
          split_ifs with hsp
          · unfold springForward fallBack at *
            omega
          · unfold springForward fallBack at *
            omega
      · refine ⟨1440 * d, ?_, ?_⟩
        · rw [filteredMinutes_covers ha hb hpad hcov]
          unfold fallBack at h2
          omega
        · unfold localDate localOf utcOffset
          split_ifs <;> (unfold springForward fallBack at *; omega)

/-- Under the padding hypotheses the grid's rows are exactly the 1440 times
of day. -/
lemma gridTods_eq {es : List Event} {a b : Nat}
    (ha : (es.map floorMin).min? = some a)
    (hb : (es.map floorMin).max? = some b)
    (hpad : a ≤ windowStartMin) (hcov : windowEndMin ≤ b) :
    gridTods es = Finset.range 1440 := by
  ext t
  unfold gridTods
  rw [List.mem_toFinset, List.mem_map, Finset.mem_range]
  constructor
  · rintro ⟨m, _hm, rfl⟩
    unfold localTod
    omega
  · intro ht
    refine ⟨10 * 1440 + t, ?_, ?_⟩
    · rw [filteredMinutes_covers ha hb hpad hcov]
      omega
    · unfold localTod localOf utcOffset springForward fallBack
      split_ifs <;> omega

/-- Every wall-clock minute outside the skipped spring-forward hour is the
reading of some UTC minute (one no earlier than the window start when the
wall clock is). -/
lemma exists_preimage (lm : Nat)
    (h : lm < springForward ∨ springForward + 60 ≤ lm) :
    ∃ m, localOf m = lm ∧ m ≤ lm ∧ (1440 ≤ lm → 1440 ≤ m) := by
  unfold springForward at h
  by_cases h1 : lm < 123900
  · refine ⟨lm, ?_, le_refl _, by omega⟩
    unfold localOf utcOffset springForward fallBack
    split_ifs <;> omega
  · by_cases h2 : lm < 436380 + 60
    · refine ⟨lm - 60, ?_, by omega, by omega⟩
      unfold localOf utcOffset springForward fallBack
      split_ifs <;> omega
    · refine ⟨lm, ?_, le_refl _, by omega⟩
      unfold localOf utcOffset springForward fallBack
      split_ifs <;> omega

/-- Every grid cell outside the spring-forward hole holds at least one
minute record. -/
lemma cell_nonempty {es : List Event} {a b : Nat}
    (ha : (es.map floorMin).min? = some a)
    (hb : (es.map floorMin).max? = some b)
    (hpad : a ≤ windowStartMin) (hcov : windowEndMin ≤ b)
    {d t : Nat} (hd1 : 1 ≤ d) (hd2 : d ≤ 365) (ht : t < 1440)
    (hgap : ¬(d = 86 ∧ 60 ≤ t ∧ t < 120)) :
    gridCellRecords es d t ≠ [] := by
  have hok : 1440 * d + t < springForward ∨
      springForward + 60 ≤ 1440 * d + t := by
    unfold springForward
    omega
  obtain ⟨m, hlo, hm1, hm2⟩ := exists_preimage (1440 * d + t) hok
  have hdm : localDate m = d := by
    unfold localDate
    omega
  have htm : localTod m = t := by
    unfold localTod
    omega
  have hmf : m ∈ filteredMinutes es := by
    rw [filteredMinutes_covers ha hb hpad hcov]
    omega
  exact List.ne_nil_of_mem
    (List.mem_filter.mpr ⟨hmf, by simp [hdm, htm]⟩)

/-- Claim C2, as stated, is false on the code: even when the sweep covers
the whole window (here, an event at the epoch and one in the final minute
of 2022), the pivoted grid does have 1440 rows and 365 columns, but the
cell (2022-03-27, 01:30) is empty — Europe/London skips 01:00–01:59 on
that day, so no minute record carries that wall-clock time. -/
theorem c2_counterexample :
    ¬ (∀ (es : List Event) (a b : Nat),
        (es.map floorMin).min? = some a →
        (es.map floorMin).max? = some b →
        a ≤ windowStartMin → windowEndMin ≤ b →
        (gridTods es).card = 1440 ∧ (gridDates es).card = 365 ∧
        ∀ d ∈ gridDates es, ∀ t ∈ gridTods es,
          gridCellRecords es d t ≠ []) := by
  intro h
  have ha : (([⟨0, 0⟩, ⟨31622370, 4⟩] : List Event).map floorMin).min?
      = some 0 := by decide
  have hb : (([⟨0, 0⟩, ⟨31622370, 4⟩] : List Event).map floorMin).max?
      = some 527039 := by decide
  obtain ⟨-, -, h3⟩ := h [⟨0, 0⟩, ⟨31622370, 4⟩] 0 527039 ha hb
    (by decide) (by decide)
  have hd : (86 : Nat) ∈ gridDates [⟨0, 0⟩, ⟨31622370, 4⟩] := by
    rw [gridDates_eq ha hb (by decide) (by decide)]
    exact Finset.mem_Icc.mpr (by omega)
  have ht : (90 : Nat) ∈ gridTods [⟨0, 0⟩, ⟨31622370, 4⟩] := by
    rw [gridTods_eq ha hb (by decide) (by decide)]
    exact Finset.mem_range.mpr (by omega)
  exact h3 86 hd 90 ht (gap_cells_empty _ 90 (by decide) (by decide))

/-- Claim C2, amended: under the sweep's padding the grid has exactly 1440
rows and exactly 365 columns, and every cell is non-empty except the sixty
cells (2022-03-27, 01:00–01:59), which are empty because Europe/London
skips that hour; those cells are empty for every event input. -/
theorem c2_grid (es : List Event) (a b : Nat)
    (ha : (es.map floorMin).min? = some a)
    (hb : (es.map floorMin).max? = some b)
    (hpad : a ≤ windowStartMin) (hcov : windowEndMin ≤ b) :
    (gridTods es).card = 1440 ∧ (gridDates es).card = 365
    ∧ (∀ d ∈ gridDates es, ∀ t ∈ gridTods es,
        ¬(d = 86 ∧ 60 ≤ t ∧ t < 120) → gridCellRecords es d t ≠ [])
    ∧ (∀ t, 60 ≤ t → t < 120 → gridCellRecords es 86 t = []) := by
  have hT := gridTods_eq ha hb hpad hcov
  have hD := gridDates_eq ha hb hpad hcov
  refine ⟨by rw [hT, Finset.card_range], by rw [hD, Nat.card_Icc], ?_, ?_⟩
  · intro d hd t ht hgap
    rw [hD, Finset.mem_Icc] at hd
    rw [hT, Finset.mem_range] at ht
    exact cell_nonempty ha hb hpad hcov hd.1 hd.2 ht hgap
  · exact fun t h1 h2 => gap_cells_empty es t h1 h2

/-- Witness for `c2_grid`: an event at the epoch and one in the final
minute of 2022. -/
theorem c2_grid_witness :
    (([⟨0, 0⟩, ⟨31622370, 4⟩] : List Event).map floorMin).min? = some 0
    ∧ (([⟨0, 0⟩, ⟨31622370, 4⟩] : List Event).map floorMin).max? = some 527039
    ∧ ((gridTods [⟨0, 0⟩, ⟨31622370, 4⟩]).card = 1440
      ∧ (gridDates [⟨0, 0⟩, ⟨31622370, 4⟩]).card = 365
      ∧ (∀ d ∈ gridDates [⟨0, 0⟩, ⟨31622370, 4⟩],
          ∀ t ∈ gridTods [⟨0, 0⟩, ⟨31622370, 4⟩],
          ¬(d = 86 ∧ 60 ≤ t ∧ t < 120) →
          gridCellRecords [⟨0, 0⟩, ⟨31622370, 4⟩] d t ≠ [])
      ∧ (∀ t, 60 ≤ t → t < 120 →
          gridCellRecords [⟨0, 0⟩, ⟨31622370, 4⟩] 86 t = [])) :=
  ⟨by decide, by decide,
    c2_grid [⟨0, 0⟩, ⟨31622370, 4⟩] 0 527039 (by decide) (by decide)
      (by decide) (by decide)⟩

/-! ## Phase-id range (claim C7) -/

/-- Claim C7: when the oracle's phase ids lie in {0,…,4} — as
`dark_twilight_day` guarantees — so does every forward-filled minute phase,
and every grid cell whose minute records agree (as they do whenever a
wall-clock minute is unambiguous, and on the repeated autumn hour both
passes are Night) holds an integer value in {0,…,4}; the id order follows
twilight depth, with 0 named Night and 4 named Day. -/
theorem c7_phase_range (es : List Event)
    (h4 : ∀ ev ∈ es, ev.stageID ≤ 4) :
    (∀ m s, phaseAt es m = some s → s ≤ 4)
    ∧ (∀ d t,
        (∀ m₁ ∈ gridCellRecords es d t, ∀ m₂ ∈ gridCellRecords es d t,
          stageAtD es m₁ = stageAtD es m₂) →
        ∀ q, gridCellValue es d t = some q → ∃ s : Nat, s ≤ 4 ∧ q = (s : ℚ))
    ∧ TWILIGHTS 0 = "Night" ∧ TWILIGHTS 4 = "Day" := by
  have hrange : ∀ m s, phaseAt es m = some s → s ≤ 4 := by
    intro m s hms
    obtain ⟨ev, hev, hseq⟩ := phaseAt_mem es m s hms
    exact hseq ▸ h4 ev hev
  refine ⟨hrange, ?_, rfl, rfl⟩
  intro d t hag q hq
  unfold gridCellValue at hq
  cases hE : (gridCellRecords es d t).isEmpty with
  | true => simp [hE] at hq
  | false =>
    have hnil : gridCellRecords es d t ≠ [] := by
      intro hcontra
      rw [hcontra] at hE
      simp at hE
    obtain ⟨m0, hm0⟩ := List.exists_mem_of_ne_nil _ hnil
    simp only [hE, Bool.false_eq_true, if_false, Option.some.injEq] at hq
    have hall : ∀ x ∈ (gridCellRecords es d t).map
        (fun m => (stageAtD es m : ℚ)), x = (stageAtD es m0 : ℚ) := by
      intro x hx
      obtain ⟨m, hm, rfl⟩ := List.mem_map.mp hx
      exact congrArg (fun n : Nat => (n : ℚ)) (hag m hm m0 hm0)
    have hrep := List.eq_replicate_of_mem hall
    have hlen : ((gridCellRecords es d t).map
        (fun m => (stageAtD es m : ℚ))).length
        = (gridCellRecords es d t).length := List.length_map _ _
    have hlen0 : (gridCellRecords es d t).length ≠ 0 := by
      intro hzero
      exact hnil (List.length_eq_zero.mp hzero)
    have hsum : ((gridCellRecords es d t).map
        (fun m => (stageAtD es m : ℚ))).sum
        = ((gridCellRecords es d t).length : ℚ) * (stageAtD es m0 : ℚ) := by
      rw [hrep, List.sum_replicate, hlen, nsmul_eq_mul]
    refine ⟨stageAtD es m0, ?_, ?_⟩
    · unfold stageAtD
      cases hp : phaseAt es m0 with
      | none => simp
      | some s' => simpa using hrange m0 s' hp
    · rw [← hq, hsum, mul_comm, mul_div_assoc, div_self
        (Nat.cast_ne_zero.mpr hlen0), mul_one]

/-- Witness for `c7_phase_range` at a concrete input. -/
theorem c7_phase_range_witness :
    (∀ ev ∈ ([⟨0, 2⟩] : List Event), ev.stageID ≤ 4)
    ∧ ((∀ m s, phaseAt [⟨0, 2⟩] m = some s → s ≤ 4)
      ∧ (∀ d t,
          (∀ m₁ ∈ gridCellRecords [⟨0, 2⟩] d t,
            ∀ m₂ ∈ gridCellRecords [⟨0, 2⟩] d t,
            stageAtD [⟨0, 2⟩] m₁ = stageAtD [⟨0, 2⟩] m₂) →
          ∀ q, gridCellValue [⟨0, 2⟩] d t = some q →
            ∃ s : Nat, s ≤ 4 ∧ q = (s : ℚ))
      ∧ TWILIGHTS 0 = "Night" ∧ TWILIGHTS 4 = "Day") :=
  ⟨by decide, c7_phase_range [⟨0, 2⟩] (by decide)⟩

/-! ## Solstice filtering (claim C4) -/

/-- Claim C4: from a year's four seasonal events (each of the four season
indices occurring once), the string filter retains exactly two, and every
retained event's name contains "solstice" case-insensitively. -/
theorem c4_solstice_filter (sevs : List (Nat × Fin 4))
    (hnodup : (sevs.map Prod.snd).Nodup)
    (hlen : sevs.length = 4) :
    (solsticeMarks sevs).length = 2
    ∧ ∀ p ∈ solsticeMarks sevs, containsSolstice (seasonName p.2) = true := by
  constructor
  · have h1 : (solsticeMarks sevs).length
        = sevs.countP (fun p => containsSolstice (seasonName p.2)) :=
      (List.countP_eq_length_filter _ _).symm
    have h2 : (sevs.map Prod.snd).countP
          (fun i => containsSolstice (seasonName i))
        = sevs.countP (fun p => containsSolstice (seasonName p.2)) := by
      rw [List.countP_map]
      rfl
    have hlen' : (sevs.map Prod.snd).length = 4 := by
      rw [List.length_map, hlen]
    have huniv : (sevs.map Prod.snd).toFinset = Finset.univ :=
      Finset.eq_univ_of_card _
        (by rw [List.toFinset_card_of_nodup hnodup, hlen']; rfl)
    have h3 : (sevs.map Prod.snd).countP
          (fun i => containsSolstice (seasonName i))
        = ((sevs.map Prod.snd).toFinset.filter
            (fun i => containsSolstice (seasonName i) = true)).card := by
      rw [← List.toFinset_filter,
        List.toFinset_card_of_nodup (hnodup.filter _),
        List.countP_eq_length_filter]
    rw [h1, ← h2, h3, huniv]
    decide
  · intro p hp
    exact (List.mem_filter.mp hp).2

/-- Witness for `c4_solstice_filter`: the four 2022 season events in
chronological order. -/
theorem c4_solstice_filter_witness :
    (([(113700, 0), (249060, 1), (385020, 2), (517680, 3)] :
        List (Nat × Fin 4)).map Prod.snd).Nodup
    ∧ (([(113700, 0), (249060, 1), (385020, 2), (517680, 3)] :
        List (Nat × Fin 4)).length = 4)
    ∧ ((solsticeMarks [(113700, 0), (249060, 1), (385020, 2),
          (517680, 3)]).length = 2
      ∧ ∀ p ∈ solsticeMarks
          ([(113700, 0), (249060, 1), (385020, 2), (517680, 3)] :
            List (Nat × Fin 4)),
          containsSolstice (seasonName p.2) = true) :=
  ⟨by decide, by decide,
    c4_solstice_filter [(113700, 0), (249060, 1), (385020, 2), (517680, 3)]
      (by decide) (by decide)⟩

/-! ## The seasons query interval (claim C10) -/

/-- Claim C10: the seasons query runs from 2022-01-01 00:00 UTC up to but
excluding 2022-12-31 00:00 UTC, so an event on the final calendar day of
the year (2022-12-31, UTC day index 365) lies outside the searched
interval, and no retained solstice mark can fall on that day. -/
theorem c10_seasons_window (sevs : List (Nat × Fin 4))
    (h : ∀ p ∈ sevs, inSeasonsQuery p.1) :
    (∀ t, t / 1440 = 365 → ¬ inSeasonsQuery t)
    ∧ ∀ p ∈ solsticeMarks sevs, p.1 / 1440 ≠ 365 := by
  have hnot : ∀ t, t / 1440 = 365 → ¬ inSeasonsQuery t := by
    intro t ht hin
    unfold inSeasonsQuery seasonsQueryStart seasonsQueryEnd at hin
    omega
  refine ⟨hnot, ?_⟩
  intro p hp h365
  exact hnot p.1 h365 (h p (List.mem_filter.mp hp).1)

/-- Witness for `c10_seasons_window` at a concrete event list. -/
theorem c10_seasons_window_witness :
    (∀ p ∈ ([(249060, 1)] : List (Nat × Fin 4)), inSeasonsQuery p.1)
    ∧ ((∀ t, t / 1440 = 365 → ¬ inSeasonsQuery t)
      ∧ ∀ p ∈ solsticeMarks ([(249060, 1)] : List (Nat × Fin 4)),
          p.1 / 1440 ≠ 365) :=
  ⟨by decide, c10_seasons_window [(249060, 1)] (by decide)⟩

/-! ## The day-by-day sweep windows (claim C8) -/

/-- Consecutive `date_range` boundaries strictly increase. -/
lemma sweepBoundaryMin_lt_succ (i : Nat) :
    sweepBoundaryMin i < sweepBoundaryMin (i + 1) := by
  unfold sweepBoundaryMin utcOfLocal springForward fallBack
  split_ifs <;> omega

/-- The `date_range` boundaries are monotone. -/
lemma sweepBoundaryMin_mono : Monotone sweepBoundaryMin :=
  monotone_nat_of_le_succ fun i => le_of_lt (sweepBoundaryMin_lt_succ i)

/-- The length of each sweep window in minutes: one local calendar day,
which is 23 hours on 2022-03-27 (window 86), 25 hours on 2022-10-30
(window 303) and 24 hours otherwise. -/
lemma sweepWindow_length (i : Nat) :
    sweepBoundaryMin (i + 1) - sweepBoundaryMin i
      = if i = 86 then 1380 else if i = 303 then 1500 else 1440 := by
  unfold sweepBoundaryMin utcOfLocal springForward fallBack
  split_ifs <;> omega

/-- Claim C8, as stated, is false on the code: the sweep's windows are not
all 24 hours long.  The 87th window, local day 2022-03-27, runs from UTC
second 7430400 to 7513200 — 23 hours, because Europe/London skips an hour
that night. -/
theorem c8_counterexample :
    ¬ (∀ p ∈ sweepWindows, p.2 = p.1 + 86400) := by
  intro h24
  have hmem : ((7430400, 7513200) : Nat × Nat) ∈ sweepWindows := by
    unfold sweepWindows
    refine List.mem_map.mpr ⟨86, List.mem_range.mpr (by decide), ?_⟩
    decide
  have := h24 _ hmem
  omega

/-- Claim C8, amended: the sweep splits the query range into consecutive
*local-calendar-day* windows — 24 hours each except the two daylight-saving
days (23 h and 25 h) — and, provided each per-window oracle call returns a
chronological list of events strictly inside its window (skyfield's
contract), the concatenated record list is chronological and lies strictly
within the overall query interval. -/
theorem c8_sweep (oracle : Nat → Nat → List Event)
    (hsort : ∀ p ∈ sweepWindows,
      (oracle p.1 p.2).Pairwise (fun a b => a.time ≤ b.time))
    (hin : ∀ p ∈ sweepWindows, ∀ ev ∈ oracle p.1 p.2,
      p.1 < ev.time ∧ ev.time < p.2) :
    (∀ i, sweepBoundaryMin (i + 1) - sweepBoundaryMin i
        = if i = 86 then 1380 else if i = 303 then 1500 else 1440)
    ∧ (∀ i, i + 1 < numBoundaries - 1 →
        (sweepWindows.getD (i + 1) (0, 0)).1 = (sweepWindows.getD i (0, 0)).2)
    ∧ (sweepEvents oracle).Pairwise (fun a b => a.time ≤ b.time)
    ∧ ∀ ev ∈ sweepEvents oracle,
        sweepBoundarySec 0 < ev.time
        ∧ ev.time < sweepBoundarySec (numBoundaries - 1) := by
  refine ⟨sweepWindow_length, ?_, ?_, ?_⟩
  · intro i hi
    unfold sweepWindows numBoundaries at *
    rw [List.getD_eq_getElem _ _ (by simpa using hi),
      List.getD_eq_getElem _ _ (by simp; omega)]
    simp
  · have hflat : sweepEvents oracle
        = (sweepWindows.map fun w => oracle w.1 w.2).flatten := rfl
    rw [hflat, List.pairwise_flatten]
    constructor
    · intro l hl
      obtain ⟨w, hw, rfl⟩ := List.mem_map.mp hl
      exact hsort w hw
    · rw [List.pairwise_map]
      unfold sweepWindows
      rw [List.pairwise_map]
      refine List.Pairwise.imp_of_mem ?_ (List.pairwise_lt_range _)
      intro i j hi _hj hij x hx y hy
      have hwi : (sweepBoundarySec i, sweepBoundarySec (i + 1)) ∈ sweepWindows := by
        unfold sweepWindows
        exact List.mem_map.mpr ⟨i, hi, rfl⟩
      have hwj : (sweepBoundarySec j, sweepBoundarySec (j + 1)) ∈ sweepWindows := by
        unfold sweepWindows
        exact List.mem_map.mpr ⟨j, _hj, rfl⟩
      have h1 := (hin _ hwi x hx).2
      have h2 := (hin _ hwj y hy).1
      have hle : sweepBoundarySec (i + 1) ≤ sweepBoundarySec j :=
        mul_le_mul_left' (sweepBoundaryMin_mono hij) 60
      simp only at h1 h2
      omega
  · intro ev hev
    rw [sweepEvents, List.mem_flatMap] at hev
    obtain ⟨w, hw, hevw⟩ := hev
    unfold sweepWindows at hw
    obtain ⟨i, hi, rfl⟩ := List.mem_map.mp hw
    have hbounds := hin _
      (by unfold sweepWindows; exact List.mem_map.mpr ⟨i, hi, rfl⟩) ev hevw
    simp only at hbounds
    have hi' : i < numBoundaries - 1 := by
      simpa using List.mem_range.mp hi
    have hlow : sweepBoundarySec 0 ≤ sweepBoundarySec i :=
      mul_le_mul_left' (sweepBoundaryMin_mono (Nat.zero_le i)) 60
    have hhigh : sweepBoundarySec (i + 1) ≤ sweepBoundarySec (numBoundaries - 1) :=
      mul_le_mul_left' (sweepBoundaryMin_mono (by omega)) 60
    omega


/-- Witness for `c8_sweep` at a concrete (empty-result) oracle. -/
theorem c8_sweep_witness :
    (∀ p ∈ sweepWindows,
      ((fun _ _ => ([] : List Event)) p.1 p.2).Pairwise
        (fun a b => a.time ≤ b.time))
    ∧ ((∀ i, sweepBoundaryMin (i + 1) - sweepBoundaryMin i
          = if i = 86 then 1380 else if i = 303 then 1500 else 1440)
      ∧ (∀ i, i + 1 < numBoundaries - 1 →
          (sweepWindows.getD (i + 1) (0, 0)).1
            = (sweepWindows.getD i (0, 0)).2)
      ∧ (sweepEvents fun _ _ => ([] : List Event)).Pairwise
          (fun a b => a.time ≤ b.time)
      ∧ ∀ ev ∈ sweepEvents fun _ _ => ([] : List Event),
          sweepBoundarySec 0 < ev.time
          ∧ ev.time < sweepBoundarySec (numBoundaries - 1)) :=
  ⟨fun _ _ => List.Pairwise.nil,
    c8_sweep (fun _ _ => []) (fun _ _ => List.Pairwise.nil)
      (fun _ _ ev hev => absurd hev (List.not_mem_nil ev))⟩

/-! ## Label derivation lemmas (claims C3, C9) -/

/-- Deduplication does not change the underlying set of period keys. -/
lemma dedup_toFinset (l : List String) : l.dedup.toFinset = l.toFinset := by
  ext a
  simp [List.mem_dedup]

/-- The number of anchors is the number of distinct period keys. -/
lemma labels_length (rs : List DayRec) :
    (labelsOf rs).length = ((rs.map period).toFinset).card := by
  unfold labelsOf
  rw [List.length_map, ← dedup_toFinset,
    List.toFinset_card_of_nodup (List.nodup_dedup _)]

/-- Counting anchors by a predicate on their period key counts the distinct
period keys satisfying it. -/
lemma countP_labels (rs : List DayRec) (Q : String → Bool) :
    (labelsOf rs).countP (fun a => Q a.period)
      = (((rs.map period).toFinset).filter (fun p => Q p = true)).card := by
  unfold labelsOf
  rw [List.countP_map]
  show ((rs.map period).dedup).countP (fun p => Q p) = _
  rw [List.countP_eq_length_filter,
    ← List.toFinset_card_of_nodup ((List.nodup_dedup _).filter _),
    List.toFinset_filter, dedup_toFinset]

/-- A run of records sharing one period key contributes exactly that key to
the key set. -/
lemma toFinset_of_const (l : List DayRec) (c : String)
    (h : ∀ r ∈ l, period r = c) (hne : l ≠ []) :
    (l.map period).toFinset = {c} := by
  have hall : ∀ x ∈ l.map period, x = c := by
    intro x hx
    obtain ⟨r, hr, rfl⟩ := List.mem_map.mp hx
    exact h r hr
  rw [List.eq_replicate_of_mem hall, List.toFinset_replicate_of_ne_zero]
  rw [List.length_map]
  intro hzero
  exact hne (List.length_eq_zero.mp hzero)

/-- Evaluation of the period key for a non-`Day` phase. -/
lemma period_eval_notday (r : DayRec) (k : Nat) (hk : r.stageID = k)
    (hnd : TWILIGHTS k ≠ "Day") :
    period r = TWILIGHTS k ++ "_" ++ ampm r.tod := by
  unfold period
  rw [hk, if_neg hnd]

/-- Evaluation of the period key for the `Day` phase. -/
lemma period_eval_day (r : DayRec) (hk : r.stageID = 4) : period r = "Day" := by
  unfold period
  rw [hk]
  exact if_pos rfl

/-- Morning records read `AM`. -/
lemma ampm_am (t : Nat) (h : t < 720) : ampm t = "AM" := if_pos h

/-- Afternoon records read `PM`. -/
lemma ampm_pm (t : Nat) (h : 720 ≤ t) : ampm t = "PM" := if_neg (by omega)

/-- Claim C3, as stated, is false on the code: on a final day passing
through Night, the three twilights, Day and back, the grouping does yield
one Day anchor and an AM and a PM anchor for each twilight — but it also
yields a Night_AM and a Night_PM anchor, so the total is 9 LabelAnchors,
not 7. -/
theorem c3_counterexample :
    ¬ (∀ rs : List DayRec,
        runsOf (rs.map DayRec.stageID) = [0, 1, 2, 3, 4, 3, 2, 1, 0] →
        ((labelsOf rs).countP (fun a => decide (a.period = "Day")) = 1
          ∧ (∀ k ∈ ([1, 2, 3] : List Nat),
              (labelsOf rs).countP (fun a =>
                decide (a.period = TWILIGHTS k ++ "_AM"
                  ∨ a.period = TWILIGHTS k ++ "_PM")) = 2)
          ∧ (labelsOf rs).length = 7)) := by
  intro h
  obtain ⟨-, -, h7⟩ := h
    [⟨0, 365, 0⟩, ⟨100, 365, 1⟩, ⟨200, 365, 2⟩, ⟨300, 365, 3⟩,
     ⟨700, 365, 4⟩, ⟨800, 365, 3⟩, ⟨900, 365, 2⟩, ⟨1000, 365, 1⟩,
     ⟨1100, 365, 0⟩] (by decide)
  have h9 : (labelsOf
      [⟨0, 365, 0⟩, ⟨100, 365, 1⟩, ⟨200, 365, 2⟩, ⟨300, 365, 3⟩,
       ⟨700, 365, 4⟩, ⟨800, 365, 3⟩, ⟨900, 365, 2⟩, ⟨1000, 365, 1⟩,
       ⟨1100, 365, 0⟩]).length = 9 := by
    unfold labelsOf
    rw [List.length_map]
    decide
  omega

/-- Claim C3, amended: on a final day whose minute records pass through the
phases Night, AstroTwilight, NauticalTwilight, CivilTwilight, Day,
CivilTwilight, NauticalTwilight, AstroTwilight, Night in order — morning
runs before local noon and evening runs after — label derivation yields
exactly one Day anchor, exactly two anchors for each of the three twilight
phases, and also two Night anchors, for a total of 9 LabelAnchors. -/
theorem c3_labels (b0 b1 b2 b3 b4 b5 b6 b7 b8 rs : List DayRec)
    (hrs : rs = b0 ++ b1 ++ b2 ++ b3 ++ b4 ++ b5 ++ b6 ++ b7 ++ b8)
    (hblocks :
      (b0 ≠ [] ∧ b1 ≠ [] ∧ b2 ≠ [] ∧ b3 ≠ [] ∧ b4 ≠ []
        ∧ b5 ≠ [] ∧ b6 ≠ [] ∧ b7 ≠ [] ∧ b8 ≠ [])
      ∧ (∀ r ∈ b0, r.stageID = 0 ∧ r.tod < 720)
      ∧ (∀ r ∈ b1, r.stageID = 1 ∧ r.tod < 720)
      ∧ (∀ r ∈ b2, r.stageID = 2 ∧ r.tod < 720)
      ∧ (∀ r ∈ b3, r.stageID = 3 ∧ r.tod < 720)
      ∧ (∀ r ∈ b4, r.stageID = 4)
      ∧ (∀ r ∈ b5, r.stageID = 3 ∧ 720 ≤ r.tod)
      ∧ (∀ r ∈ b6, r.stageID = 2 ∧ 720 ≤ r.tod)
      ∧ (∀ r ∈ b7, r.stageID = 1 ∧ 720 ≤ r.tod)
      ∧ (∀ r ∈ b8, r.stageID = 0 ∧ 720 ≤ r.tod)) :
    (labelsOf rs).length = 9
    ∧ (labelsOf rs).countP (fun a => decide (a.period = "Day")) = 1
    ∧ (∀ k ∈ ([1, 2, 3] : List Nat),
        (labelsOf rs).countP (fun a =>
          decide (a.period = TWILIGHTS k ++ "_AM"
            ∨ a.period = TWILIGHTS k ++ "_PM")) = 2)
    ∧ (labelsOf rs).countP (fun a =>
        decide (a.period = "Night_AM" ∨ a.period = "Night_PM")) = 2 := by
  obtain ⟨⟨hn0, hn1, hn2, hn3, hn4, hn5, hn6, hn7, hn8⟩,
    hs0, hs1, hs2, hs3, hs4, hs5, hs6, hs7, hs8⟩ := hblocks
  subst hrs
  have e0 : ∀ r ∈ b0, period r = "Night_AM" := by
    intro r hr
    obtain ⟨h1, h2⟩ := hs0 r hr
    rw [period_eval_notday r 0 h1 (by decide), ampm_am _ h2]
    rfl
  have e1 : ∀ r ∈ b1, period r = "Astronomical twilight_AM" := by
    intro r hr
    obtain ⟨h1, h2⟩ := hs1 r hr
    rw [period_eval_notday r 1 h1 (by decide), ampm_am _ h2]
    rfl
  have e2 : ∀ r ∈ b2, period r = "Nautical twilight_AM" := by
    intro r hr
    obtain ⟨h1, h2⟩ := hs2 r hr
    rw [period_eval_notday r 2 h1 (by decide), ampm_am _ h2]
    rfl
  have e3 : ∀ r ∈ b3, period r = "Civil twilight_AM" := by
    intro r hr
    obtain ⟨h1, h2⟩ := hs3 r hr
    rw [period_eval_notday r 3 h1 (by decide), ampm_am _ h2]
    rfl
  have e4 : ∀ r ∈ b4, period r = "Day" := fun r hr =>
    period_eval_day r (hs4 r hr)
  have e5 : ∀ r ∈ b5, period r = "Civil twilight_PM" := by
    intro r hr
    obtain ⟨h1, h2⟩ := hs5 r hr
    rw [period_eval_notday r 3 h1 (by decide), ampm_pm _ h2]
    rfl
  have e6 : ∀ r ∈ b6, period r = "Nautical twilight_PM" := by
    intro r hr
    obtain ⟨h1, h2⟩ := hs6 r hr
    rw [period_eval_notday r 2 h1 (by decide), ampm_pm _ h2]
    rfl
  have e7 : ∀ r ∈ b7, period r = "Astronomical twilight_PM" := by
    intro r hr
    obtain ⟨h1, h2⟩ := hs7 r hr
    rw [period_eval_notday r 1 h1 (by decide), ampm_pm _ h2]
    rfl
  have e8 : ∀ r ∈ b8, period r = "Night_PM" := by
    intro r hr
    obtain ⟨h1, h2⟩ := hs8 r hr
    rw [period_eval_notday r 0 h1 (by decide), ampm_pm _ h2]
    rfl
  have hS : ((b0 ++ b1 ++ b2 ++ b3 ++ b4 ++ b5 ++ b6 ++ b7 ++ b8).map
        period).toFinset
      = ({"Night_AM"} : Finset String) ∪ {"Astronomical twilight_AM"}
        ∪ {"Nautical twilight_AM"} ∪ {"Civil twilight_AM"} ∪ {"Day"}
        ∪ {"Civil twilight_PM"} ∪ {"Nautical twilight_PM"}
        ∪ {"Astronomical twilight_PM"} ∪ {"Night_PM"} := by
    simp only [List.map_append, List.toFinset_append]
    rw [toFinset_of_const b0 _ e0 hn0, toFinset_of_const b1 _ e1 hn1,
      toFinset_of_const b2 _ e2 hn2, toFinset_of_const b3 _ e3 hn3,
      toFinset_of_const b4 _ e4 hn4, toFinset_of_const b5 _ e5 hn5,
      toFinset_of_const b6 _ e6 hn6, toFinset_of_const b7 _ e7 hn7,
      toFinset_of_const b8 _ e8 hn8]
  refine ⟨?_, ?_, ?_, ?_⟩
  · rw [labels_length, hS]
    decide
  · rw [countP_labels _ (fun p => decide (p = "Day")), hS]
    decide
  · intro k hk
    have hk' : k = 1 ∨ k = 2 ∨ k = 3 := by simpa using hk
    rcases hk' with rfl | rfl | rfl
    · rw [countP_labels _ (fun p =>
        decide (p = TWILIGHTS 1 ++ "_AM" ∨ p = TWILIGHTS 1 ++ "_PM")), hS]
      decide
    · rw [countP_labels _ (fun p =>
        decide (p = TWILIGHTS 2 ++ "_AM" ∨ p = TWILIGHTS 2 ++ "_PM")), hS]
      decide
    · rw [countP_labels _ (fun p =>
        decide (p = TWILIGHTS 3 ++ "_AM" ∨ p = TWILIGHTS 3 ++ "_PM")), hS]
      decide
  · rw [countP_labels _ (fun p =>
      decide (p = "Night_AM" ∨ p = "Night_PM")), hS]
    decide

/-- Witness for `c3_labels`: a nine-minute day passing through the phase
sequence with morning runs before noon and evening runs after. -/
theorem c3_labels_witness :
    ((([⟨0, 365, 0⟩] : List DayRec) ≠ []
        ∧ ([⟨100, 365, 1⟩] : List DayRec) ≠ []
        ∧ ([⟨200, 365, 2⟩] : List DayRec) ≠ []
        ∧ ([⟨300, 365, 3⟩] : List DayRec) ≠ []
        ∧ ([⟨700, 365, 4⟩] : List DayRec) ≠ []
        ∧ ([⟨800, 365, 3⟩] : List DayRec) ≠ []
        ∧ ([⟨900, 365, 2⟩] : List DayRec) ≠ []
        ∧ ([⟨1000, 365, 1⟩] : List DayRec) ≠ []
        ∧ ([⟨1100, 365, 0⟩] : List DayRec) ≠ [])
      ∧ (∀ r ∈ ([⟨0, 365, 0⟩] : List DayRec), r.stageID = 0 ∧ r.tod < 720)
      ∧ (∀ r ∈ ([⟨100, 365, 1⟩] : List DayRec), r.stageID = 1 ∧ r.tod < 720)
      ∧ (∀ r ∈ ([⟨200, 365, 2⟩] : List DayRec), r.stageID = 2 ∧ r.tod < 720)
      ∧ (∀ r ∈ ([⟨300, 365, 3⟩] : List DayRec), r.stageID = 3 ∧ r.tod < 720)
      ∧ (∀ r ∈ ([⟨700, 365, 4⟩] : List DayRec), r.stageID = 4)
      ∧ (∀ r ∈ ([⟨800, 365, 3⟩] : List DayRec), r.stageID = 3 ∧ 720 ≤ r.tod)
      ∧ (∀ r ∈ ([⟨900, 365, 2⟩] : List DayRec), r.stageID = 2 ∧ 720 ≤ r.tod)
      ∧ (∀ r ∈ ([⟨1000, 365, 1⟩] : List DayRec), r.stageID = 1 ∧ 720 ≤ r.tod)
      ∧ (∀ r ∈ ([⟨1100, 365, 0⟩] : List DayRec), r.stageID = 0 ∧ 720 ≤ r.tod))
    ∧ ((labelsOf [⟨0, 365, 0⟩, ⟨100, 365, 1⟩, ⟨200, 365, 2⟩, ⟨300, 365, 3⟩,
          ⟨700, 365, 4⟩, ⟨800, 365, 3⟩, ⟨900, 365, 2⟩, ⟨1000, 365, 1⟩,
          ⟨1100, 365, 0⟩]).length = 9
      ∧ (labelsOf [⟨0, 365, 0⟩, ⟨100, 365, 1⟩, ⟨200, 365, 2⟩, ⟨300, 365, 3⟩,
          ⟨700, 365, 4⟩, ⟨800, 365, 3⟩, ⟨900, 365, 2⟩, ⟨1000, 365, 1⟩,
          ⟨1100, 365, 0⟩]).countP (fun a => decide (a.period = "Day")) = 1
      ∧ (∀ k ∈ ([1, 2, 3] : List Nat),
          (labelsOf [⟨0, 365, 0⟩, ⟨100, 365, 1⟩, ⟨200, 365, 2⟩,
            ⟨300, 365, 3⟩, ⟨700, 365, 4⟩, ⟨800, 365, 3⟩, ⟨900, 365, 2⟩,
            ⟨1000, 365, 1⟩, ⟨1100, 365, 0⟩]).countP (fun a =>
              decide (a.period = TWILIGHTS k ++ "_AM"
                ∨ a.period = TWILIGHTS k ++ "_PM")) = 2)
      ∧ (labelsOf [⟨0, 365, 0⟩, ⟨100, 365, 1⟩, ⟨200, 365, 2⟩, ⟨300, 365, 3⟩,
          ⟨700, 365, 4⟩, ⟨800, 365, 3⟩, ⟨900, 365, 2⟩, ⟨1000, 365, 1⟩,
          ⟨1100, 365, 0⟩]).countP (fun a =>
            decide (a.period = "Night_AM" ∨ a.period = "Night_PM")) = 2) :=
  ⟨by decide,
    c3_labels [⟨0, 365, 0⟩] [⟨100, 365, 1⟩] [⟨200, 365, 2⟩] [⟨300, 365, 3⟩]
      [⟨700, 365, 4⟩] [⟨800, 365, 3⟩] [⟨900, 365, 2⟩] [⟨1000, 365, 1⟩]
      [⟨1100, 365, 0⟩]
      [⟨0, 365, 0⟩, ⟨100, 365, 1⟩, ⟨200, 365, 2⟩, ⟨300, 365, 3⟩,
        ⟨700, 365, 4⟩, ⟨800, 365, 3⟩, ⟨900, 365, 2⟩, ⟨1000, 365, 1⟩,
        ⟨1100, 365, 0⟩] rfl (by decide)⟩

/-- Claim C9, as stated, is false on the code: two separate contiguous
occurrences of the same phase in the same half-day do *not* yield two
anchors.  With minute records Night, AstroTwilight, Night all in the
morning there are three contiguous (phase, half-day) occurrences but only
two anchors, because `groupby('Period')` merges the two Night runs. -/
theorem c9_counterexample :
    ¬ (∀ rs : List DayRec,
        (labelsOf rs).length = (runsOf (rs.map period)).length) := by
  intro h
  have h3 := h [⟨0, 365, 0⟩, ⟨1, 365, 1⟩, ⟨2, 365, 0⟩]
  have e1 : (labelsOf [⟨0, 365, 0⟩, ⟨1, 365, 1⟩, ⟨2, 365, 0⟩]).length
      = 2 := by
    unfold labelsOf
    rw [List.length_map]
    decide
  have e2 : (runsOf (([⟨0, 365, 0⟩, ⟨1, 365, 1⟩, ⟨2, 365, 0⟩] :
      List DayRec).map period)).length = 3 := by decide
  omega

/-- Claim C9, amended: label derivation yields one anchor per *distinct*
(phase, half-day) key — separate occurrences of the same phase in the same
half-day are merged into that one anchor — and each anchor's representative
time is the mean time-of-day over *all* the day's records carrying its key
(its mean times the group size equals the group's time sum). -/
theorem c9_labels (rs : List DayRec) (r : DayRec) (hr : r ∈ rs) :
    (labelsOf rs).countP (fun a => decide (a.period = period r)) = 1
    ∧ ∀ a ∈ labelsOf rs,
        a.meanTod * ((rs.filter fun x => decide (period x = a.period)).length : ℚ)
          = ((rs.filter fun x => decide (period x = a.period)).map
              (fun x => (x.tod : ℚ))).sum := by
  constructor
  · rw [countP_labels _ (fun p => decide (p = period r))]
    have hmem : period r ∈ (rs.map period).toFinset :=
      List.mem_toFinset.mpr (List.mem_map_of_mem _ hr)
    have hfc : ((rs.map period).toFinset.filter
          (fun p => decide (p = period r) = true))
        = (rs.map period).toFinset.filter (fun p => p = period r) := by
      apply Finset.filter_congr
      intro x _
      simp
    rw [hfc, Finset.filter_eq', if_pos hmem, Finset.card_singleton]
  · intro a ha
    unfold labelsOf at ha
    obtain ⟨p, hp, rfl⟩ := List.mem_map.mp ha
    show (((rs.filter fun x => decide (period x = p)).map
          (fun x => (x.tod : ℚ))).sum
            / ((rs.filter fun x => decide (period x = p)).length : ℚ))
          * ((rs.filter fun x => decide (period x = p)).length : ℚ)
        = ((rs.filter fun x => decide (period x = p)).map
            (fun x => (x.tod : ℚ))).sum
    have hlen : (rs.filter fun x => decide (period x = p)) ≠ [] := by
      rw [List.mem_dedup] at hp
      obtain ⟨x, hx, hpx⟩ := List.mem_map.mp hp
      exact List.ne_nil_of_mem (List.mem_filter.mpr ⟨hx, by simp [hpx]⟩)
    exact div_mul_cancel₀ _
      (Nat.cast_ne_zero.mpr fun h0 => hlen (List.length_eq_zero.mp h0))

/-- Witness for `c9_labels` at a concrete morning with two separate Night
runs: its single Night_AM anchor averages over both runs. -/
theorem c9_labels_witness :
    (⟨0, 365, 0⟩ : DayRec) ∈
      ([⟨0, 365, 0⟩, ⟨1, 365, 1⟩, ⟨2, 365, 0⟩] : List DayRec)
    ∧ ((labelsOf [⟨0, 365, 0⟩, ⟨1, 365, 1⟩, ⟨2, 365, 0⟩]).countP
        (fun a => decide (a.period = period ⟨0, 365, 0⟩)) = 1
      ∧ ∀ a ∈ labelsOf [⟨0, 365, 0⟩, ⟨1, 365, 1⟩, ⟨2, 365, 0⟩],
          a.meanTod * (([⟨0, 365, 0⟩, ⟨1, 365, 1⟩, ⟨2, 365, 0⟩].filter
            fun x => decide (period x = a.period)).length : ℚ)
          = (([⟨0, 365, 0⟩, ⟨1, 365, 1⟩, ⟨2, 365, 0⟩].filter
              fun x => decide (period x = a.period)).map
              (fun x => (x.tod : ℚ))).sum) :=
  ⟨by decide, c9_labels [⟨0, 365, 0⟩, ⟨1, 365, 1⟩, ⟨2, 365, 0⟩]
    ⟨0, 365, 0⟩ (by decide)⟩
